import Mathlib

set_option maxHeartbeats 1000000

/-!
Shallow embedding of the github-run service (src/modal/executor.py) and of the
sample function src/test_functions/calculator.py, with theorems about the
deploy / execute / health endpoints.

Untrusted Python source text is embedded by its observable denotation: what
running it with `exec` binds at top level, and what calling each top-level
binding with keyword arguments returns or raises.  Python dicts (the function
registry, `os.environ`, keyword-argument maps) are embedded as association
lists with unique keys, updated in place as Python dict assignment does.
-/

/-- JSON-style values exchanged with the service, mirroring the Python data
flowing through the endpoints.  `float a b` stands for the Python float
produced by true division `a / b`; its numeric value is kept symbolic because
no endpoint in the repository inspects it. -/
inductive Value where
  | null : Value
  | bool : Bool → Value
  | int : Int → Value
  | str : String → Value
  | float : Int → Int → Value
  | list : List Value → Value
  | dict : List (String × Value) → Value

mutual

/-- Python `repr` of a value, used by `str` on containers.  Rendering of the
symbolic `float` and of quote characters inside nested strings is schematic;
only scalar renderings are relied upon by the endpoints. -/
def pyRepr : Value → String
  | Value.null => "None"
  | Value.bool true => "True"
  | Value.bool false => "False"
  | Value.int n => toString n
  | Value.str s => "\x27" ++ s ++ "\x27"
  | Value.float a b => "float(" ++ toString a ++ "/" ++ toString b ++ ")"
  | Value.list xs => "[" ++ pyReprItems xs ++ "]"
  | Value.dict xs => "\x7b" ++ pyReprPairs xs ++ "\x7d"

/-- Comma-separated `repr`s of the items of a Python list. -/
def pyReprItems : List Value → String
  | [] => ""
  | [v] => pyRepr v
  | v :: vs => pyRepr v ++ ", " ++ pyReprItems vs

/-- Comma-separated `repr`s of the items of a Python dict. -/
def pyReprPairs : List (String × Value) → String
  | [] => ""
  | [(k, v)] => "\x27" ++ k ++ "\x27: " ++ pyRepr v
  | (k, v) :: ps => "\x27" ++ k ++ "\x27: " ++ pyRepr v ++ ", " ++ pyReprPairs ps

end

/-- Python `str(value)`: the identity on strings, `repr` otherwise (with the
scalar cases `None` / `True` / `False` / decimal integers exact). -/
def pyStr : Value → String
  | Value.str s => s
  | v => pyRepr v

/-- Lookup in a Python dict embedded as an association list (`d.get(k)` /
`k in d`). -/
def dictGet {α : Type} : List (String × α) → String → Option α
  | [], _ => none
  | p :: rest, k => if p.1 == k then some p.2 else dictGet rest k

/-- Python dict assignment `d[k] = v` on an association list with unique
keys: replaces the binding in place when the key is present, appends
otherwise (insertion order preserved, as for a Python dict). -/
def dictSet {α : Type} : List (String × α) → String → α → List (String × α)
  | [], k, v => [(k, v)]
  | p :: rest, k, v => if p.1 == k then (k, v) :: rest else p :: dictSet rest k v

/-- Python `d.pop(k, None)` on an association list with unique keys. -/
def dictPop {α : Type} : List (String × α) → String → List (String × α)
  | [], _ => []
  | p :: rest, k => if p.1 == k then dictPop rest k else p :: dictPop rest k

/-- The process environment `os.environ`, embedded as a string-to-string
association list. -/
abbrev Env : Type := List (String × String)

/-- A fault raised while running deployed code: either a Python `TypeError`
(with a flag recording whether it came from binding the request body to the
entry point's parameters, the distinction §7 of the spec draws) or any other
exception, identified by its `str` rendering. -/
inductive Fault where
  | typeError : Bool → String → Fault
  | other : String → Fault

/-- Outcome of calling one top-level binding with keyword arguments. -/
inductive CallResult where
  | ok : Value → CallResult
  | raise : Fault → CallResult

/-- Denotation of one top-level binding of an executed source: whether Python
`callable` holds of it, and what calling it with given keyword arguments
does.  For a non-callable binding the call denotation is the `TypeError`
Python raises for calling such an object. -/
structure Binding where
  callable : Bool
  call : List (String × Value) → CallResult

/-- Denotation of `exec(code, namespace)` on a source text: either the
exception `exec` itself raises (syntax error, top-level fault), or the
top-level bindings it establishes, in definition order. -/
inductive ExecDen where
  | raises : Fault → ExecDen
  | binds : List (String × Binding) → ExecDen

/-- A deployed source artifact: whether its text is the empty string (the
only way a stored code string is falsy) together with its `exec` denotation. -/
structure Source where
  textIsEmpty : Bool
  den : ExecDen

/-- The `__builtins__` binding that `exec` inserts into the target namespace
before running the code.  It is not callable; calling it would raise the
`TypeError` Python raises for calling a module. -/
def builtinsBinding : Binding :=
  { callable := false
    call := fun _ => CallResult.raise
      (Fault.typeError false "\x27module\x27 object is not callable") }

/-- The namespace dict after `exec(code, namespace)` succeeds: `__builtins__`
first, then the source's top-level bindings applied as dict assignments. -/
def execNamespace (ns : List (String × Binding)) : List (String × Binding) :=
  ns.foldl (fun acc p => dictSet acc p.1 p.2) [("__builtins__", builtinsBinding)]

/-- A value stored in `deployed_functions`: either a bare code string (the
backward-compatibility shape) or the dict with keys "code" and "env_vars"
that `deploy` writes. -/
inductive StoredEntry where
  | legacy : Source → StoredEntry
  | record : Source → List (String × Value) → StoredEntry

/-- Python truthiness of a stored entry, as tested by `if not function_data`:
the record dict is non-empty hence truthy; a legacy string is truthy iff
non-empty. -/
def StoredEntry.truthy : StoredEntry → Bool
  | StoredEntry.legacy c => !c.textIsEmpty
  | StoredEntry.record _ _ => true

/-- The code of a stored entry, as selected by the backward-compatibility
branch of `execute`. -/
def StoredEntry.code : StoredEntry → Source
  | StoredEntry.legacy c => c
  | StoredEntry.record c _ => c

/-- The env_vars of a stored entry: `\x7b\x7d` for a legacy bare string,
`function_data.get("env_vars", \x7b\x7d)` otherwise (always present on
records written by `deploy`). -/
def StoredEntry.env_vars : StoredEntry → List (String × Value)
  | StoredEntry.legacy _ => []
  | StoredEntry.record _ e => e

/-- Whether the entry has the record shape `deploy` writes. -/
def StoredEntry.isRecord : StoredEntry → Bool
  | StoredEntry.legacy _ => false
  | StoredEntry.record _ _ => true

/-- An exception propagating inside the endpoint body: a `TypeError`, an
explicitly raised `fastapi.HTTPException` with its status and detail, or any
other exception. -/
inductive PyError where
  | typeError : String → PyError
  | httpError : Nat → String → PyError
  | other : String → PyError

/-- Python `str(e)` on a propagating exception; for a starlette
`HTTPException` this renders as "status: detail". -/
def PyError.toStr : PyError → String
  | PyError.typeError m => m
  | PyError.httpError s m => toString s ++ ": " ++ m
  | PyError.other m => m

/-- Lift a fault of the sandboxed code to a propagating exception. -/
def Fault.toPyError : Fault → PyError
  | Fault.typeError _ m => PyError.typeError m
  | Fault.other m => PyError.other m

/-- An HTTP response of the service: a 200 JSON body, or an error with status
code and detail string (the `HTTPException` that reaches the framework). -/
inductive Response where
  | ok : Value → Response
  | err : Nat → String → Response

/-- HTTP status code of a response. -/
def Response.status : Response → Nat
  | Response.ok _ => 200
  | Response.err s _ => s

/-- The two trailing handlers of `execute` (`except TypeError` then
`except Exception`): a `TypeError` becomes 400 "Invalid arguments: ...";
every other exception — including the `HTTPException`s raised inside the
`try`, whose `str` is "status: detail" — becomes 500 "Execution error: ...". -/
def handleOuter : PyError → Response
  | PyError.typeError m => Response.err 400 ("Invalid arguments: " ++ m)
  | e => Response.err 500 ("Execution error: " ++ e.toStr)

/-- Detail of the 404 raised when the key is not in `deployed_functions`. -/
def notFoundDetail (function_key : String) : String :=
  "Function \x27" ++ function_key ++ "\x27 not found. Please deploy it first."

/-- Python `name.startswith("_")`: true iff the first character of the name
is an underscore. -/
def startsWithUnderscore (s : String) : Bool :=
  match s.data with
  | [] => false
  | c :: _ => c == '_'

/-- The available-functions diagnostic: every namespace binding that is
callable and does not start with an underscore, in namespace order. -/
def availableFunctions (ns : List (String × Binding)) : List String :=
  (ns.filter (fun p => p.2.callable && !(startsWithUnderscore p.1))).map Prod.fst

/-- Detail of the 400 raised when the entry point is absent from the
executed namespace. -/
def entryMissingDetail (function_name : String) (afs : List String) : String :=
  if afs ≠ [] then
    "Function \x27" ++ function_name ++ "\x27 not found. Available functions: "
      ++ String.intercalate ", " afs
  else
    "Function \x27" ++ function_name
      ++ "\x27 not found. No callable functions detected in code."

/-- Running `exec(code, namespace)` on a fresh namespace: the raised
exception, or the resulting namespace dict. -/
def runExec (src : Source) : Except PyError (List (String × Binding)) :=
  match src.den with
  | ExecDen.raises f => Except.error f.toPyError
  | ExecDen.binds ns => Except.ok (execNamespace ns)

/-- Body of the inner `try` of `execute` after the environment overlay is
installed: exec the code, resolve the entry point (raising the 400 with the
available-functions diagnostic when absent), call it with the request body as
keyword arguments. -/
def innerBody (code : Source) (function_name : String)
    (request_data : List (String × Value)) : Except PyError Value :=
  match runExec code with
  | Except.error e => Except.error e
  | Except.ok ns =>
    match dictGet ns function_name with
    | none =>
      Except.error (PyError.httpError 400
        (entryMissingDetail function_name (availableFunctions ns)))
    | some user_function =>
      match user_function.call request_data with
      | CallResult.ok v => Except.ok v
      | CallResult.raise f => Except.error f.toPyError

/-- The `for key, value in env_vars.items()` loop of `execute`: records the
prior value of each key in `original_env` and installs `str(value)`. -/
def setEnvVarsAux : List (String × Value) → List (String × Option String) → Env →
    List (String × Option String) × Env
  | [], original_env, env => (original_env, env)
  | (k, v) :: rest, original_env, env =>
    setEnvVarsAux rest (dictSet original_env k (dictGet env k))
      (dictSet env k (pyStr v))

/-- Install an env_vars overlay starting from an empty `original_env`. -/
def setEnvVars (env_vars : List (String × Value)) (env : Env) :
    List (String × Option String) × Env :=
  setEnvVarsAux env_vars [] env

/-- The `finally` block of `execute`: restore each recorded key, popping the
ones that were absent before the call. -/
def restoreEnv : List (String × Option String) → Env → Env
  | [], env => env
  | (k, o) :: rest, env =>
    restoreEnv rest (match o with
      | none => dictPop env k
      | some s => dictSet env k s)

/-- Global state of the service: the `deployed_functions` dict and the
process environment `os.environ`. -/
structure ExecState where
  registry : List (String × StoredEntry)
  env : Env

/-- The POST /execute/\x7bowner\x7d/\x7brepo\x7d/\x7bfunction_name\x7d
endpoint.  Returns the HTTP response and the process environment after the
call.  Mirrors the source: key lookup and falsiness check, the
backward-compatibility branch, the env-overlay loop, the inner `try` body
with its `finally` restore, and the two trailing exception handlers — which
also intercept the `HTTPException`s raised inside the `try`. -/
def execute (st : ExecState) (owner repo function_name : String)
    (request_data : List (String × Value)) : Response × Env :=
  let function_key := owner ++ "/" ++ repo ++ "/" ++ function_name
  match dictGet st.registry function_key with
  | none => (handleOuter (PyError.httpError 404 (notFoundDetail function_key)), st.env)
  | some function_data =>
    if function_data.truthy then
      let se := setEnvVars function_data.env_vars st.env
      let res := innerBody function_data.code function_name request_data
      let env2 := restoreEnv se.1 se.2
      match res with
      | Except.ok v =>
        (Response.ok (Value.dict [("success", Value.bool true), ("result", v)]), env2)
      | Except.error e => (handleOuter e, env2)
    else
      (handleOuter (PyError.httpError 404 (notFoundDetail function_key)), st.env)

/-- Body of a POST /deploy request. -/
structure DeployRequest where
  code : Source
  owner : String
  repo : String
  function_name : String
  env_vars : List (String × Value)

/-- The POST /deploy endpoint: stores the record under the composite key and
answers with the endpoint URL and a timestamp-derived deployment id.  `now`
is `int(time.time())`.  No step can raise, so the surrounding `except`
clause is unreachable and `deploy` is total. -/
def deploy (st : ExecState) (request : DeployRequest) (now : Nat) :
    ExecState × Response :=
  let function_key :=
    request.owner ++ "/" ++ request.repo ++ "/" ++ request.function_name
  let registry2 := dictSet st.registry function_key
    (StoredEntry.record request.code request.env_vars)
  let endpoint := "https://scaile--github-run-mvp-web.modal.run/execute/"
    ++ request.owner ++ "/" ++ request.repo ++ "/" ++ request.function_name
  ({ registry := registry2, env := st.env },
    Response.ok (Value.dict
      [("success", Value.bool true),
       ("endpoint", Value.str endpoint),
       ("deployment_id", Value.str ("deploy_" ++ toString now))]))

/-- The GET /health endpoint: `list(deployed_functions.keys())` cannot raise,
so the `except` arm that would return the empty list is unreachable. -/
def health (st : ExecState) : Response :=
  Response.ok (Value.dict
    [("status", Value.str "healthy"),
     ("deployed_functions", Value.list (st.registry.map (fun p => Value.str p.1)))])

/-- The env_vars of the entry deployed under `key`, empty when absent. -/
def deployedEnvVars (st : ExecState) (key : String) : List (String × Value) :=
  match dictGet st.registry key with
  | some fd => fd.env_vars
  | none => []

/-- Registries reachable from the empty dict using only the deploy
endpoint. -/
inductive DeployOnlyReg : List (String × StoredEntry) → Prop where
  | nil : DeployOnlyReg []
  | step (m : List (String × StoredEntry)) (env0 : Env) (request : DeployRequest)
      (now : Nat) : DeployOnlyReg m →
      DeployOnlyReg ((deploy { registry := m, env := env0 } request now).1.registry)

/-- The calculator of src/test_functions/calculator.py on a string operation
and integer operands (all values a JSON body of the §8 example can supply).
The `operations` dict literal evaluates all four entries eagerly, with the
division guarded by `if b != 0`. -/
def calculator (operation : String) (a b : Int) : Value :=
  let operations : List (String × Value) :=
    [("add", Value.int (a + b)),
     ("subtract", Value.int (a - b)),
     ("multiply", Value.int (a * b)),
     ("divide", if b ≠ 0 then Value.float a b
                else Value.str "Error: Division by zero")]
  Value.dict
    [("operation", Value.str operation),
     ("result", (dictGet operations operation).getD (Value.str "Unknown operation"))]

/-- Call denotation of `calculator(**request_data)`: Python binds keyword
arguments against the parameters (operation="add", a=0, b=0), raising a
`TypeError` for an unexpected keyword; the body is embedded for string
operations and integer operands, the typings exercised by the repository,
and summarized as a runtime fault otherwise. -/
def calculatorBinding : Binding :=
  { callable := true
    call := fun args =>
      match args.find? (fun p => !(["operation", "a", "b"].contains p.1)) with
      | some p => CallResult.raise (Fault.typeError true
          ("calculator() got an unexpected keyword argument \x27" ++ p.1 ++ "\x27"))
      | none =>
        match (dictGet args "operation").getD (Value.str "add"),
              (dictGet args "a").getD (Value.int 0),
              (dictGet args "b").getD (Value.int 0) with
        | Value.str operation, Value.int a, Value.int b =>
          CallResult.ok (calculator operation a b)
        | _, _, _ =>
          CallResult.raise (Fault.other
            "calculator body not modelled at non-integer operands") }

/-- The source text of calculator.py: non-empty, binding exactly
`calculator` at top level. -/
def calculatorSource : Source :=
  { textIsEmpty := false
    den := ExecDen.binds [("calculator", calculatorBinding)] }


/-! Lemmas about the embedded dict operations. -/

theorem dictGet_dictSet_self {α : Type} (m : List (String × α)) (k : String) (v : α) :
    dictGet (dictSet m k v) k = some v := by
  induction m with
  | nil => simp [dictSet, dictGet]
  | cons p rest ih =>
    by_cases h : p.1 = k
    · simp [dictSet, dictGet, h]
    · simp [dictSet, dictGet, h, ih]

theorem dictGet_dictSet_ne {α : Type} (m : List (String × α)) (k k' : String) (v : α)
    (h : k' ≠ k) : dictGet (dictSet m k v) k' = dictGet m k' := by
  induction m with
  | nil => simp [dictSet, dictGet, Ne.symm h]
  | cons p rest ih =>
    by_cases hp : p.1 = k
    · simp [dictSet, dictGet, hp, Ne.symm h]
    · by_cases hp' : p.1 = k'
      · simp [dictSet, dictGet, hp, hp', h]
      · simp [dictSet, dictGet, hp, hp', ih]

theorem dictGet_dictPop_self {α : Type} (m : List (String × α)) (k : String) :
    dictGet (dictPop m k) k = none := by
  induction m with
  | nil => simp [dictPop, dictGet]
  | cons p rest ih =>
    by_cases h : p.1 = k
    · simp [dictPop, h, ih]
    · simp [dictPop, dictGet, h, ih]

theorem dictGet_dictPop_ne {α : Type} (m : List (String × α)) (k k' : String)
    (h : k' ≠ k) : dictGet (dictPop m k) k' = dictGet m k' := by
  induction m with
  | nil => simp [dictPop]
  | cons p rest ih =>
    by_cases hp : p.1 = k
    · simp [dictPop, dictGet, hp, Ne.symm h, ih]
    · simp [dictPop, dictGet, hp, ih]

theorem dictGet_eq_none_of_notMem {α : Type} (m : List (String × α)) (k : String)
    (h : k ∉ m.map Prod.fst) : dictGet m k = none := by
  induction m with
  | nil => simp [dictGet]
  | cons p rest ih =>
    simp only [List.map_cons, List.mem_cons] at h
    push_neg at h
    simp [dictGet, Ne.symm h.1, ih h.2]

theorem dictSet_keys_of_notMem {α : Type} (m : List (String × α)) (k : String) (v : α)
    (h : k ∉ m.map Prod.fst) :
    (dictSet m k v).map Prod.fst = m.map Prod.fst ++ [k] := by
  induction m with
  | nil => simp [dictSet]
  | cons p rest ih =>
    simp only [List.map_cons, List.mem_cons] at h
    push_neg at h
    simp [dictSet, Ne.symm h.1, ih h.2]

/-! Lemmas about the environment-overlay install and restore loops. -/

theorem restoreEnv_get_notMem (orig : List (String × Option String)) (env : Env)
    (k : String) (h : k ∉ orig.map Prod.fst) :
    dictGet (restoreEnv orig env) k = dictGet env k := by
  induction orig generalizing env with
  | nil => simp [restoreEnv]
  | cons p rest ih =>
    simp only [List.map_cons, List.mem_cons] at h
    push_neg at h
    obtain ⟨k0, o0⟩ := p
    cases o0 with
    | none =>
      rw [restoreEnv, ih _ h.2, dictGet_dictPop_ne _ _ _ h.1]
    | some s =>
      rw [restoreEnv, ih _ h.2, dictGet_dictSet_ne _ _ _ _ h.1]

theorem restoreEnv_get (orig : List (String × Option String)) (env : Env) (k : String)
    (hnd : (orig.map Prod.fst).Nodup) :
    dictGet (restoreEnv orig env) k = (dictGet orig k).getD (dictGet env k) := by
  induction orig generalizing env with
  | nil => simp [restoreEnv, dictGet]
  | cons p rest ih =>
    obtain ⟨k0, o0⟩ := p
    simp only [List.map_cons, List.nodup_cons] at hnd
    by_cases hk : k0 = k
    · subst hk
      have hnot : k0 ∉ rest.map Prod.fst := hnd.1
      cases o0 with
      | none =>
        rw [restoreEnv, restoreEnv_get_notMem _ _ _ hnot, dictGet_dictPop_self]
        simp [dictGet]
      | some s =>
        rw [restoreEnv, restoreEnv_get_notMem _ _ _ hnot, dictGet_dictSet_self]
        simp [dictGet]
    · cases o0 with
      | none =>
        rw [restoreEnv, ih _ hnd.2, dictGet_dictPop_ne _ _ _ (Ne.symm hk)]
        simp [dictGet, hk]
      | some s =>
        rw [restoreEnv, ih _ hnd.2, dictGet_dictSet_ne _ _ _ _ (Ne.symm hk)]
        simp [dictGet, hk]

theorem setEnvVarsAux_snd_notMem (ev : List (String × Value))
    (orig : List (String × Option String)) (env : Env) (k : String)
    (h : k ∉ ev.map Prod.fst) :
    dictGet (setEnvVarsAux ev orig env).2 k = dictGet env k := by
  induction ev generalizing orig env with
  | nil => simp [setEnvVarsAux]
  | cons p rest ih =>
    simp only [List.map_cons, List.mem_cons] at h
    push_neg at h
    obtain ⟨k0, v0⟩ := p
    rw [setEnvVarsAux, ih _ _ h.2, dictGet_dictSet_ne _ _ _ _ h.1]

theorem setEnvVarsAux_fst_notMem (ev : List (String × Value))
    (orig : List (String × Option String)) (env : Env) (k : String)
    (h : k ∉ ev.map Prod.fst) :
    dictGet (setEnvVarsAux ev orig env).1 k = dictGet orig k := by
  induction ev generalizing orig env with
  | nil => simp [setEnvVarsAux]
  | cons p rest ih =>
    simp only [List.map_cons, List.mem_cons] at h
    push_neg at h
    obtain ⟨k0, v0⟩ := p
    rw [setEnvVarsAux, ih _ _ h.2, dictGet_dictSet_ne _ _ _ _ h.1]

theorem setEnvVarsAux_fst_mem (ev : List (String × Value))
    (orig : List (String × Option String)) (env : Env) (k : String) (v : Value)
    (hnd : (ev.map Prod.fst).Nodup) (hm : (k, v) ∈ ev) :
    dictGet (setEnvVarsAux ev orig env).1 k = some (dictGet env k) := by
  induction ev generalizing orig env with
  | nil => cases hm
  | cons p rest ih =>
    obtain ⟨k0, v0⟩ := p
    simp only [List.map_cons, List.nodup_cons] at hnd
    rcases List.mem_cons.mp hm with hh | hh
    · obtain ⟨rfl, rfl⟩ := Prod.mk.injEq .. ▸ hh
      rw [setEnvVarsAux, setEnvVarsAux_fst_notMem _ _ _ _ hnd.1,
        dictGet_dictSet_self]
    · have hkrest : k ∈ rest.map Prod.fst :=
        List.mem_map.mpr ⟨(k, v), hh, rfl⟩
      have hne : k ≠ k0 := fun heq => hnd.1 (heq ▸ hkrest)
      rw [setEnvVarsAux, ih _ _ hnd.2 hh, dictGet_dictSet_ne _ _ _ _ hne]

theorem setEnvVarsAux_snd_mem (ev : List (String × Value))
    (orig : List (String × Option String)) (env : Env) (k : String) (v : Value)
    (hnd : (ev.map Prod.fst).Nodup) (hm : (k, v) ∈ ev) :
    dictGet (setEnvVarsAux ev orig env).2 k = some (pyStr v) := by
  induction ev generalizing orig env with
  | nil => cases hm
  | cons p rest ih =>
    obtain ⟨k0, v0⟩ := p
    simp only [List.map_cons, List.nodup_cons] at hnd
    rcases List.mem_cons.mp hm with hh | hh
    · obtain ⟨rfl, rfl⟩ := Prod.mk.injEq .. ▸ hh
      rw [setEnvVarsAux, setEnvVarsAux_snd_notMem _ _ _ _ hnd.1,
        dictGet_dictSet_self]
    · have hkrest : k ∈ rest.map Prod.fst :=
        List.mem_map.mpr ⟨(k, v), hh, rfl⟩
      have hne : k ≠ k0 := fun heq => hnd.1 (heq ▸ hkrest)
      rw [setEnvVarsAux, ih _ _ hnd.2 hh]

theorem setEnvVarsAux_fst_keys (ev : List (String × Value))
    (orig : List (String × Option String)) (env : Env)
    (hnd : (ev.map Prod.fst).Nodup)
    (hdisj : ∀ k ∈ ev.map Prod.fst, k ∉ orig.map Prod.fst) :
    (setEnvVarsAux ev orig env).1.map Prod.fst =
      orig.map Prod.fst ++ ev.map Prod.fst := by
  induction ev generalizing orig env with
  | nil => simp [setEnvVarsAux]
  | cons p rest ih =>
    obtain ⟨k0, v0⟩ := p
    simp only [List.map_cons, List.nodup_cons] at hnd
    have hk0 : k0 ∉ orig.map Prod.fst := hdisj k0 (by simp)
    rw [setEnvVarsAux, ih _ _ hnd.2 ?_]
    · rw [dictSet_keys_of_notMem _ _ _ hk0]
      simp
    · intro k hk
      have hne : k ≠ k0 := fun heq => hnd.1 (heq ▸ hk)
      rw [dictSet_keys_of_notMem _ _ _ hk0]
      simp only [List.mem_append, List.mem_singleton]
      push_neg
      exact ⟨hdisj k (by simp [hk]), hne⟩

/-- Installing and then restoring an env_vars overlay with distinct keys
leaves every key of the process environment with its prior value. -/
theorem setEnvVars_restore (ev : List (String × Value)) (env : Env) (k : String)
    (hnd : (ev.map Prod.fst).Nodup) :
    dictGet (restoreEnv (setEnvVars ev env).1 (setEnvVars ev env).2) k
      = dictGet env k := by
  have horig : (setEnvVars ev env).1.map Prod.fst = ev.map Prod.fst := by
    have := setEnvVarsAux_fst_keys ev [] env hnd (by simp)
    simpa [setEnvVars] using this
  have hnd' : ((setEnvVars ev env).1.map Prod.fst).Nodup := by
    rw [horig]; exact hnd
  rw [restoreEnv_get _ _ _ hnd']
  by_cases hk : k ∈ ev.map Prod.fst
  · obtain ⟨p, hp, hfst⟩ := List.mem_map.mp hk
    obtain ⟨k', v⟩ := p
    subst hfst
    rw [show (setEnvVars ev env).1 = (setEnvVarsAux ev [] env).1 from rfl,
      setEnvVarsAux_fst_mem ev [] env k' v hnd hp]
    simp
  · have h1 : dictGet (setEnvVars ev env).1 k = none :=
      dictGet_eq_none_of_notMem _ _ (horig ▸ hk)
    rw [h1]
    simpa using setEnvVarsAux_snd_notMem ev [] env k hk

/-- Unfolding of `execute` on a deployed, truthy entry: the response is the
translation of the inner body's outcome and the final environment is the
restore applied after the overlay install. -/
theorem execute_deployed (st : ExecState) (o r f : String)
    (args : List (String × Value)) (fd : StoredEntry)
    (hget : dictGet st.registry (o ++ "/" ++ r ++ "/" ++ f) = some fd)
    (ht : fd.truthy = true) :
    execute st o r f args =
      ((match innerBody fd.code f args with
        | Except.ok v =>
          Response.ok (Value.dict [("success", Value.bool true), ("result", v)])
        | Except.error e => handleOuter e),
       restoreEnv (setEnvVars fd.env_vars st.env).1
         (setEnvVars fd.env_vars st.env).2) := by
  simp only [execute]
  rw [hget]
  simp only [ht, if_true]
  cases innerBody fd.code f args <;> rfl

/-- Membership in the available-functions diagnostic is exactly: bound in the
namespace, callable, and not underscore-prefixed. -/
theorem mem_availableFunctions (ns : List (String × Binding)) (n : String) :
    n ∈ availableFunctions ns ↔
      ∃ b, (n, b) ∈ ns ∧ b.callable = true ∧ startsWithUnderscore n = false := by
  unfold availableFunctions
  constructor
  · intro h
    obtain ⟨p, hp, rfl⟩ := List.mem_map.mp h
    obtain ⟨hmem, hfilt⟩ := List.mem_filter.mp hp
    simp only [Bool.and_eq_true, Bool.not_eq_true'] at hfilt
    exact ⟨p.2, hmem, hfilt.1, hfilt.2⟩
  · rintro ⟨b, hmem, hc, hs⟩
    exact List.mem_map.mpr ⟨(n, b), List.mem_filter.mpr ⟨hmem, by simp [hc, hs]⟩, rfl⟩

/-- A key has a registry entry exactly when it occurs among the stored
keys. -/
theorem dictGet_isSome_iff {α : Type} (m : List (String × α)) (k : String) :
    (dictGet m k).isSome ↔ k ∈ m.map Prod.fst := by
  induction m with
  | nil => simp [dictGet]
  | cons p rest ih =>
    by_cases h : p.1 = k
    · simp [dictGet, h]
    · simp [dictGet, h, ih, Ne.symm h]

/-- A source binding nothing, used as a neutral deployed artifact. -/
def emptySource : Source := { textIsEmpty := false, den := ExecDen.binds [] }

/-! Claim theorems. -/

/-- Claim C1.  Executing a never-deployed key does not produce the claimed
404 NotFound response: the endpoint raises `HTTPException(404, ...)`, but the
trailing `except Exception` clause intercepts it and re-raises it as HTTP 500
with detail "Execution error: 404: ...", so the caller observes a 500. -/
theorem execute_unknown_key_returns_500 :
    (execute { registry := [], env := [] } "o" "r" "f" []).1 =
      Response.err 500
        "Execution error: 404: Function \x27o/r/f\x27 not found. Please deploy it first."
    ∧ ((execute { registry := [], env := [] } "o" "r" "f" []).1).status ≠ 404 :=
  ⟨rfl, by decide⟩

/-- Concrete deployment for claims C2: the source binds only the callable
`helper`, while the entry point asked for is `main`. -/
def helperBinding : Binding :=
  { callable := true, call := fun _ => CallResult.ok Value.null }

/-- Source text that defines `helper` but not `main`. -/
def srcHelper : Source :=
  { textIsEmpty := false, den := ExecDen.binds [("helper", helperBinding)] }

/-- State with `srcHelper` deployed under o/r/main. -/
def stC2 : ExecState :=
  { registry := [("o/r/main", StoredEntry.record srcHelper [])], env := [] }

/-- Claim C2, counterexample.  When the deployed source lacks the entry
point, the response is not a 404 NotFound failure: the endpoint raises
`HTTPException(400, ...)` and the trailing `except Exception` wraps even
that into HTTP 500 "Execution error: 400: ...". -/
theorem entry_point_missing_not_404 :
    (execute stC2 "o" "r" "main" []).1 =
      Response.err 500
        "Execution error: 400: Function \x27main\x27 not found. Available functions: helper"
    ∧ ((execute stC2 "o" "r" "main" []).1).status ≠ 404 :=
  ⟨rfl, by decide⟩

/-- Claim C2, amended.  For every deployed source whose executed namespace
lacks the entry point, `execute` answers HTTP 500 whose detail wraps the
internal 400 diagnostic "Function ... not found. Available functions: ..."
(or the no-callable-functions variant when the list is empty), and the
enumerated list holds exactly the namespace bindings that are callable and
do not start with an underscore. -/
theorem entry_point_missing_wrapped_500 (st : ExecState) (o r f : String)
    (args : List (String × Value)) (src : Source) (ev : List (String × Value))
    (ns0 : List (String × Binding))
    (hget : dictGet st.registry (o ++ "/" ++ r ++ "/" ++ f)
      = some (StoredEntry.record src ev))
    (hsrc : src.den = ExecDen.binds ns0)
    (habs : dictGet (execNamespace ns0) f = none) :
    (execute st o r f args).1 =
      Response.err 500 ("Execution error: "
        ++ ("400: " ++ entryMissingDetail f (availableFunctions (execNamespace ns0))))
    ∧ ∀ n, n ∈ availableFunctions (execNamespace ns0) ↔
        ∃ b, (n, b) ∈ execNamespace ns0 ∧ b.callable = true
          ∧ startsWithUnderscore n = false := by
  constructor
  · rw [execute_deployed st o r f args _ hget rfl]
    simp only [innerBody, runExec, StoredEntry.code, hsrc, habs]
    rfl
  · intro n
    exact mem_availableFunctions _ _

/-- Claim C2, witness: the amended statement applied to the deployment of
`srcHelper` under o/r/main. -/
theorem entry_point_missing_wrapped_500_w :
    (execute stC2 "o" "r" "main" []).1 =
      Response.err 500 ("Execution error: " ++ ("400: "
        ++ entryMissingDetail "main"
          (availableFunctions (execNamespace [("helper", helperBinding)])))) :=
  (entry_point_missing_wrapped_500 stC2 "o" "r" "main" [] srcHelper []
    [("helper", helperBinding)] rfl rfl rfl).1

/-- A deployed function whose body raises a `TypeError` that does not come
from binding the request arguments. -/
def badBodyBinding : Binding :=
  { callable := true
    call := fun _ => CallResult.raise (Fault.typeError false
      "unsupported operand type(s) for +: \x27int\x27 and \x27str\x27") }

/-- Source text binding only `boom`, whose body raises the above fault. -/
def badBodySource : Source :=
  { textIsEmpty := false, den := ExecDen.binds [("boom", badBodyBinding)] }

/-- State with `badBodySource` deployed under o/r/boom. -/
def stC3 : ExecState :=
  { registry := [("o/r/boom", StoredEntry.record badBodySource [])], env := [] }

/-- Claim C3, counterexample.  A `TypeError` raised inside the sandboxed
body — not an argument mismatch, as its recorded binding flag shows — is
classified by the `except TypeError` clause as HTTP 400 InvalidArguments,
where the claim's taxonomy demands ExecutionError 500. -/
theorem body_type_error_gets_400 :
    badBodyBinding.call [] = CallResult.raise (Fault.typeError false
      "unsupported operand type(s) for +: \x27int\x27 and \x27str\x27")
    ∧ (execute stC3 "o" "r" "boom" []).1 =
      Response.err 400
        "Invalid arguments: unsupported operand type(s) for +: \x27int\x27 and \x27str\x27"
    ∧ ((execute stC3 "o" "r" "boom" []).1).status ≠ 500 :=
  ⟨rfl, rfl, by decide⟩

/-- Claim C3, amended.  Faults of the invoked entry point are classified by
Python exception class, not by origin: every `TypeError` — whether from
argument binding or raised inside the body — yields HTTP 400
"Invalid arguments: ...", and every other fault yields HTTP 500
"Execution error: ...". -/
theorem fault_classified_by_type_error (st : ExecState) (o r f : String)
    (args : List (String × Value)) (src : Source) (ev : List (String × Value))
    (ns0 : List (String × Binding)) (b : Binding) (flt : Fault)
    (hget : dictGet st.registry (o ++ "/" ++ r ++ "/" ++ f)
      = some (StoredEntry.record src ev))
    (hsrc : src.den = ExecDen.binds ns0)
    (hfind : dictGet (execNamespace ns0) f = some b)
    (hcall : b.call args = CallResult.raise flt) :
    (execute st o r f args).1 =
      match flt with
      | Fault.typeError _ m => Response.err 400 ("Invalid arguments: " ++ m)
      | Fault.other m => Response.err 500 ("Execution error: " ++ m) := by
  rw [execute_deployed st o r f args _ hget rfl]
  simp only [innerBody, runExec, StoredEntry.code, hsrc, hfind, hcall]
  cases flt with
  | typeError fb m => rfl
  | other m => rfl

/-- Claim C3, witness: the classification applied to the in-body
`TypeError` of `badBodySource`. -/
theorem fault_classified_by_type_error_w :
    (execute stC3 "o" "r" "boom" []).1 =
      Response.err 400 ("Invalid arguments: "
        ++ "unsupported operand type(s) for +: \x27int\x27 and \x27str\x27") :=
  fault_classified_by_type_error stC3 "o" "r" "boom" [] badBodySource []
    [("boom", badBodyBinding)] badBodyBinding
    (Fault.typeError false
      "unsupported operand type(s) for +: \x27int\x27 and \x27str\x27")
    rfl rfl rfl rfl

/-- Claim C4.  Whatever the outcome of the call — success, any failure, or a
fault in the invoked code — the process environment after `execute` agrees
with the environment before it on every key (the deployed env_vars keys are
distinct, being keys of a Python dict), so env_vars never persist into the
host process beyond the call. -/
theorem execute_restores_environment (st : ExecState) (o r f : String)
    (args : List (String × Value))
    (hnd : ((deployedEnvVars st (o ++ "/" ++ r ++ "/" ++ f)).map Prod.fst).Nodup)
    (k : String) :
    dictGet (execute st o r f args).2 k = dictGet st.env k := by
  cases hget : dictGet st.registry (o ++ "/" ++ r ++ "/" ++ f) with
  | none =>
    simp only [execute]
    rw [hget]
  | some fd =>
    by_cases ht : fd.truthy = true
    · rw [execute_deployed st o r f args fd hget ht]
      have hev : deployedEnvVars st (o ++ "/" ++ r ++ "/" ++ f) = fd.env_vars := by
        simp [deployedEnvVars, hget]
      rw [hev] at hnd
      exact setEnvVars_restore _ _ _ hnd
    · simp only [execute]
      rw [hget]
      simp [ht]

/-- Deployment for the C4 witness: one env var shadowing an ambient one. -/
def stC4 : ExecState :=
  { registry := [("o/r/f", StoredEntry.record emptySource [("API_KEY", Value.int 7)])]
    env := [("API_KEY", "orig"), ("HOME", "/root")] }

/-- Claim C4, witness: after executing the deployment that overlays API_KEY,
the environment entry for API_KEY equals its value from before the call. -/
theorem execute_restores_environment_w :
    ((deployedEnvVars stC4 ("o" ++ "/" ++ "r" ++ "/" ++ "f")).map Prod.fst).Nodup
    ∧ dictGet (execute stC4 "o" "r" "f" []).2 "API_KEY" = dictGet stC4.env "API_KEY" :=
  ⟨by decide, execute_restores_environment stC4 "o" "r" "f" [] (by decide) "API_KEY"⟩

/-- Claim C5.  Redeploying the same composite key fully replaces the stored
entry: after two deploys the registry holds exactly the second request's
code and env_vars. -/
theorem redeploy_replaces_entry (st : ExecState) (o r f : String)
    (c1 c2 : Source) (e1 e2 : List (String × Value)) (n1 n2 : Nat) :
    dictGet (deploy (deploy st
        { code := c1, owner := o, repo := r, function_name := f, env_vars := e1 } n1).1
        { code := c2, owner := o, repo := r, function_name := f, env_vars := e2 } n2).1.registry
      (o ++ "/" ++ r ++ "/" ++ f) = some (StoredEntry.record c2 e2) := by
  simp only [deploy]
  exact dictGet_dictSet_self _ _ _

/-- Claim C6, counterexample.  A deploy request with an empty owner segment
is not rejected: the endpoint succeeds and stores the entry under the
malformed key "/repo/fn". -/
theorem deploy_empty_owner_succeeds :
    (deploy { registry := [], env := [] }
      { code := emptySource, owner := "", repo := "repo", function_name := "fn",
        env_vars := [] } 0).2 =
      Response.ok (Value.dict
        [("success", Value.bool true),
         ("endpoint",
          Value.str "https://scaile--github-run-mvp-web.modal.run/execute//repo/fn"),
         ("deployment_id", Value.str "deploy_0")])
    ∧ dictGet (deploy { registry := [], env := [] }
      { code := emptySource, owner := "", repo := "repo", function_name := "fn",
        env_vars := [] } 0).1.registry "/repo/fn"
        = some (StoredEntry.record emptySource []) :=
  ⟨rfl, rfl⟩

/-- Claim C6, amended.  `deploy` validates nothing: for every request,
including ones with empty key segments, it succeeds with the success body
and stores the deployment under owner/repo/function_name. -/
theorem deploy_never_validates_and_stores (st : ExecState)
    (request : DeployRequest) (now : Nat) :
    (deploy st request now).2 = Response.ok (Value.dict
      [("success", Value.bool true),
       ("endpoint", Value.str ("https://scaile--github-run-mvp-web.modal.run/execute/"
         ++ request.owner ++ "/" ++ request.repo ++ "/" ++ request.function_name)),
       ("deployment_id", Value.str ("deploy_" ++ toString now))])
    ∧ dictGet (deploy st request now).1.registry
        (request.owner ++ "/" ++ request.repo ++ "/" ++ request.function_name)
      = some (StoredEntry.record request.code request.env_vars) := by
  refine ⟨rfl, ?_⟩
  simp only [deploy]
  exact dictGet_dictSet_self _ _ _

/-- Claim C7.  `health` is total, always answers status "healthy" with the
list of deployed keys — a key has a registry entry exactly when it appears
in that list — and the list is empty for the empty registry (the map of the
empty list). -/
theorem health_reports_all_keys (st : ExecState) (k : String) :
    health st = Response.ok (Value.dict
      [("status", Value.str "healthy"),
       ("deployed_functions",
        Value.list (st.registry.map (fun p => Value.str p.1)))])
    ∧ ((dictGet st.registry k).isSome
        ↔ Value.str k ∈ st.registry.map (fun p => Value.str p.1)) := by
  refine ⟨rfl, ?_⟩
  rw [dictGet_isSome_iff]
  constructor
  · intro h
    obtain ⟨p, hp, hfst⟩ := List.mem_map.mp h
    exact List.mem_map.mpr ⟨p, hp, by rw [hfst]⟩
  · intro h
    obtain ⟨p, hp, heq⟩ := List.mem_map.mp h
    exact List.mem_map.mpr ⟨p, hp, Value.str.inj heq⟩

/-- State obtained by deploying the calculator source under
octo/repo/calculator. -/
def calcState : ExecState :=
  (deploy { registry := [], env := [] }
    { code := calculatorSource, owner := "octo", repo := "repo",
      function_name := "calculator", env_vars := [] } 0).1

/-- Claim C8.  On the deployed calculator, add 2 3 answers Success with
result 5, and divide 1 0 answers Success whose result carries the string
"Error: Division by zero" — the division guard lives inside the function,
so no failure response is produced. -/
theorem calculator_example_behavior :
    (execute calcState "octo" "repo" "calculator"
      [("operation", Value.str "add"), ("a", Value.int 2), ("b", Value.int 3)]).1 =
      Response.ok (Value.dict [("success", Value.bool true),
        ("result", Value.dict
          [("operation", Value.str "add"), ("result", Value.int 5)])])
    ∧ (execute calcState "octo" "repo" "calculator"
      [("operation", Value.str "divide"), ("a", Value.int 1), ("b", Value.int 0)]).1 =
      Response.ok (Value.dict [("success", Value.bool true),
        ("result", Value.dict
          [("operation", Value.str "divide"),
           ("result", Value.str "Error: Division by zero")])]) :=
  ⟨rfl, rfl⟩

/-- Registries reachable through deploy alone hold only record-shaped
entries. -/
theorem deployOnly_entries_record_aux (m : List (String × StoredEntry))
    (hm : DeployOnlyReg m) :
    ∀ k fd, dictGet m k = some fd → fd.isRecord = true := by
  induction hm with
  | nil =>
    intro k fd hget
    simp [dictGet] at hget
  | step m0 env0 request now hprev ih =>
    intro k fd hget
    simp only [deploy] at hget
    by_cases hk :
        (request.owner ++ "/" ++ request.repo ++ "/" ++ request.function_name) = k
    · rw [← hk, dictGet_dictSet_self] at hget
      cases hget
      rfl
    · rw [dictGet_dictSet_ne _ _ _ _ (Ne.symm hk)] at hget
      exact ih k fd hget

/-- Claim C9.  Every entry of a registry populated only through the deploy
endpoint has the record shape with the "code" and "env_vars" keys, so the
backward-compatibility branch of `execute` that treats a stored entry as a
bare code string is never taken on such a registry. -/
theorem deploy_only_registry_entries_are_records (m : List (String × StoredEntry))
    (hm : DeployOnlyReg m) (k : String) (fd : StoredEntry)
    (hget : dictGet m k = some fd) : fd.isRecord = true :=
  deployOnly_entries_record_aux m hm k fd hget

/-- Deploy request used by the C9 witness. -/
def reqW : DeployRequest :=
  { code := emptySource, owner := "o", repo := "r", function_name := "f",
    env_vars := [] }

/-- Registry reached by one deploy of `reqW` from the empty registry. -/
def regW : List (String × StoredEntry) :=
  (deploy { registry := [], env := [] } reqW 0).1.registry

/-- Claim C9, witness: the single-deploy registry holds the key, and the
invariant applied there shows the stored entry is record-shaped. -/
theorem deploy_only_registry_entries_are_records_w :
    dictGet regW "o/r/f" = some (StoredEntry.record emptySource [])
    ∧ (StoredEntry.record emptySource []).isRecord = true :=
  ⟨rfl, deploy_only_registry_entries_are_records regW
    (DeployOnlyReg.step [] [] reqW 0 DeployOnlyReg.nil) "o/r/f"
    (StoredEntry.record emptySource []) rfl⟩

/-- Claim C10.  Installing an env_vars overlay (whose keys, being Python
dict keys, are distinct) places `str(value)` in the environment for every
key: the sandboxed code observes the string rendering, never the original
typed value. -/
theorem env_values_installed_as_str (ev : List (String × Value)) (env : Env)
    (k : String) (v : Value)
    (hnd : (ev.map Prod.fst).Nodup) (hm : (k, v) ∈ ev) :
    dictGet (setEnvVars ev env).2 k = some (pyStr v) :=
  setEnvVarsAux_snd_mem ev [] env k v hnd hm

/-- Claim C10, witness: the numeric env var 5 is installed as the string
"5". -/
theorem env_values_installed_as_str_w :
    (([("NUM", Value.int 5)].map Prod.fst).Nodup : Prop)
    ∧ dictGet (setEnvVars [("NUM", Value.int 5)] []).2 "NUM" = some "5" := by
  refine ⟨by decide, ?_⟩
  have h := env_values_installed_as_str [("NUM", Value.int 5)] [] "NUM"
    (Value.int 5) (by decide) (by simp)
  rw [h]
  simp only [pyStr, pyRepr]
  rfl
